import Mathlib

/-!
Verification of the ukagaka-dll-macro adapter layer.

This file is a shallow embedding of the repository's two source files,
`src/lib.rs` and `src/dll_util.rs`, together with the load-negotiation
entry points that `dll_util.rs`'s helpers are written for.

Modelling conventions:
* A host memory block (`HGLOBAL`) is represented by the list of bytes it
  contains; a byte is a natural number below 256.  The `i8`/`u8`
  reinterpretation at the FFI boundary is the identity on the underlying
  byte, so both slices of `i8` and vectors of `u8` are `List Byte`.
* `c_long` (Windows `LONG`) is a 32-bit signed integer, modelled as `Int`
  with the `usize -> c_long` cast made explicit (`i32ofNat`).
* `BOOL` is the winapi 32-bit integer with `TRUE = 1`, `FALSE = 0`.
* Reads that violate `std::slice::from_raw_parts`'s safety precondition
  (negative length, or a length exceeding the block's extent) are
  undefined behaviour and are modelled as `none`.
* The process-wide `OnceLock` cells are modelled by explicit state
  passing of `Option` values with `OnceLock::set`'s first-writer-wins
  result.
-/

namespace Ukagaka

/-- Bytes of host memory: natural numbers, meaningful below 256. -/
abbrev Byte := Nat

/-- winapi `BOOL`, a 32-bit signed integer. -/
abbrev BOOL := Int

/-- winapi `TRUE`. -/
def TRUE : BOOL := 1

/-- winapi `FALSE`. -/
def FALSE : BOOL := 0

/-- Rust `if b { TRUE } else { FALSE }`, the mapping from a user
callback's `bool` to the ABI's `BOOL`. -/
def boolToBOOL (b : Bool) : BOOL := if b then TRUE else FALSE

/-- Rust's `as` cast from `usize` to `c_long` (Windows `LONG`, i.e.
`i32`): keep the low 32 bits and reinterpret them as a signed 32-bit
integer. -/
def i32ofNat (n : Nat) : Int :=
  if n % 4294967296 < 2147483648 then ((n % 4294967296 : Nat) : Int)
  else ((n % 4294967296 : Nat) : Int) - 4294967296

/-- Values below `2^31` pass through the `usize -> c_long` cast
unchanged. -/
theorem i32ofNat_of_lt (n : Nat) (h : n < 2147483648) : i32ofNat n = (n : Int) := by
  have h2 : n < 4294967296 := by omega
  simp [i32ofNat, Nat.mod_eq_of_lt h2, h]

/-- At exactly `2^31` the `usize -> c_long` cast wraps to `-2^31`. -/
theorem i32ofNat_two_pow31 : i32ofNat 2147483648 = -2147483648 := by
  norm_num [i32ofNat]

/-- Function `slice_i8_to_hglobal` (src/dll_util.rs lines 84-96; the
same function also appears at src/lib.rs lines 98-110):
`GlobalAlloc(GMEM_FIXED, data_len)` allocates a block of exactly
`data.len()` bytes, `*h_len = data_len as c_long` writes the cast length
through the out-parameter, and `copy_from_slice` fills the block with the
data.  The result is the content of the returned block paired with the
value written through `h_len`. -/
def slice_i8_to_hglobal (data : List Byte) : List Byte × Int :=
  (data, i32ofNat data.length)

/-- Function `hglobal_to_vec_u8` (src/dll_util.rs lines 105-110; the
same function also appears at src/lib.rs lines 119-124): copies
`len as usize` bytes out of the block with `from_raw_parts(...).to_vec()`
and then pushes one `0` byte.  A negative `len` (after `as usize` it
exceeds `isize::MAX`) or a `len` beyond the block's extent violates
`from_raw_parts`'s precondition — undefined behaviour, modelled as
`none`. -/
def hglobal_to_vec_u8 (mem : List Byte) (len : Int) : Option (List Byte) :=
  if 0 ≤ len ∧ len.toNat ≤ mem.length then some (mem.take len.toNat ++ [0]) else none

/-- Semantics of `std::sync::OnceLock::set`: the first write fills the
cell and succeeds; any later write leaves the cell unchanged and returns
the rejected value as the error. -/
def onceLockSet {α : Type} (cell : Option α) (v : α) : Option α × Except α Unit :=
  match cell with
  | none => (some v, Except.ok ())
  | some w => (some w, Except.error v)

/-- Function `register_dll_path` (src/dll_util.rs lines 36-38):
`DLL_PATH.set(path)`.  The `OnceLock<String>` cell is passed explicitly;
the decoded path string is represented by its character codes. -/
def register_dll_path (st : Option (List Byte)) (path : List Byte) :
    Option (List Byte) × Except (List Byte) Unit :=
  onceLockSet st path

/-- Function `read_dll_path_string` (src/dll_util.rs lines 27-29):
`DLL_PATH.get().cloned()`. -/
def read_dll_path_string (st : Option (List Byte)) : Option (List Byte) := st

/-- Function `register_loadu_result` (src/dll_util.rs lines 54-56):
`LOADU_RESULT.set(result)` on the `OnceLock<BOOL>` cell. -/
def register_loadu_result (st : Option BOOL) (result : BOOL) :
    Option BOOL × Except BOOL Unit :=
  onceLockSet st result

/-- Function `read_loadu_result` (src/dll_util.rs lines 45-47):
`LOADU_RESULT.get().cloned()`. -/
def read_loadu_result (st : Option BOOL) : Option BOOL := st

/-- Function `unload` as produced by `define_unload!(cb)`
(src/lib.rs lines 250-258): no memory arguments; the user callback's
`bool` is mapped to `TRUE`/`FALSE`. -/
def unload_entry (cb : Unit → Bool) : BOOL :=
  boolToBOOL (cb ())

/-- Function `unload` as produced by the argument-free `define_unload!()`
(src/lib.rs lines 243-247): always `TRUE`. -/
def unload_entry_default : BOOL := TRUE

/-- C4: the module-path registry is write-once.  Starting from the unset
cell, registering `p1` succeeds, registering `p2` afterwards is reported
as an error (carrying the rejected value, as `OnceLock::set` does), and a
read after both calls still returns `p1`. -/
theorem dll_path_registry_write_once (p1 p2 : List Byte) :
    (register_dll_path none p1).2 = Except.ok () ∧
    (register_dll_path (register_dll_path none p1).1 p2).2 = Except.error p2 ∧
    read_dll_path_string (register_dll_path (register_dll_path none p1).1 p2).1 = some p1 := by
  simp [register_dll_path, onceLockSet, read_dll_path_string]

/-- C9: `unload` takes no memory arguments (its Lean embedding takes
none); with a user callback it returns `TRUE` exactly when the callback
returns `true` (and `FALSE` exactly when it returns `false`); without a
callback it always returns `TRUE`. -/
theorem unload_maps_callback_bool :
    (∀ cb : Unit → Bool, (unload_entry cb = TRUE ↔ cb () = true) ∧
      (unload_entry cb = FALSE ↔ cb () = false)) ∧
    unload_entry_default = TRUE := by
  refine ⟨fun cb => ?_, rfl⟩
  cases hcb : cb () <;> simp [unload_entry, boolToBOOL, hcb, TRUE, FALSE]

/-- Helper for the overflow counterexamples: a byte sequence of length
exactly `2^31`, the first length at which the `usize -> c_long` cast in
`slice_i8_to_hglobal` stops being the identity. -/
def bigBlock : List Byte := List.replicate 2147483648 0

/-- Unfolding lemma: the block content produced by `slice_i8_to_hglobal`
is the input data. -/
theorem slice_i8_to_hglobal_fst (data : List Byte) : (slice_i8_to_hglobal data).1 = data := rfl

/-- Unfolding lemma: the out-parameter value written by
`slice_i8_to_hglobal` is the cast length. -/
theorem slice_i8_to_hglobal_snd (data : List Byte) :
    (slice_i8_to_hglobal data).2 = i32ofNat data.length := rfl

/-- Length of the helper block. -/
theorem bigBlock_len : bigBlock.length = 2147483648 := by
  rw [bigBlock, List.length_replicate]

/-- Fact about the helper block: its reported length after
`slice_i8_to_hglobal` is the wrapped value `-2^31`. -/
theorem bigBlock_reported_len : (slice_i8_to_hglobal bigBlock).2 = -2147483648 := by
  rw [slice_i8_to_hglobal_snd, bigBlock_len, i32ofNat_two_pow31]

/-- Reading from a block with the negative length `-2^31` is outside the
defined domain of `hglobal_to_vec_u8`, whatever the block. -/
theorem hglobal_neg_len_undefined (mem w : List Byte) :
    hglobal_to_vec_u8 mem (-2147483648) ≠ some w := by
  rw [hglobal_to_vec_u8]
  norm_num
  simp

/-- C2 (amended): for every byte sequence `B` whose length fits the
32-bit out-parameter (`|B| < 2^31`), allocating with
`slice_i8_to_hglobal` and reading back with `hglobal_to_vec_u8` at the
reported length yields exactly `B` followed by one extra `0` byte. -/
theorem hglobal_roundtrip_appends_zero (B : List Byte) (hB : B.length < 2147483648) :
    hglobal_to_vec_u8 (slice_i8_to_hglobal B).1 (slice_i8_to_hglobal B).2 = some (B ++ [0]) := by
  simp [slice_i8_to_hglobal, hglobal_to_vec_u8, i32ofNat_of_lt B.length hB]

/-- Witness for C2's amended theorem at `B = [1, 2, 3]`. -/
theorem hglobal_roundtrip_appends_zero_witness :
    hglobal_to_vec_u8 (slice_i8_to_hglobal [1, 2, 3]).1 (slice_i8_to_hglobal [1, 2, 3]).2
      = some ([1, 2, 3] ++ [0]) :=
  hglobal_roundtrip_appends_zero [1, 2, 3] (by norm_num)

/-- C2 counterexample: at the concrete input `B = List.replicate 2^31 0`
the claim fails.  `slice_i8_to_hglobal` reports the wrapped length
`-2^31` (the Rust source writes `data_len as c_long` into a 32-bit
`LONG`), so reading back with the reported length does not recover
`B ++ [0]` (the read is out of `from_raw_parts`'s defined domain). -/
theorem hglobal_roundtrip_overflow_cex :
    hglobal_to_vec_u8 (slice_i8_to_hglobal bigBlock).1 (slice_i8_to_hglobal bigBlock).2
      ≠ some (bigBlock ++ [0]) := by
  rw [bigBlock_reported_len]
  exact hglobal_neg_len_undefined _ _

/-- C7 (amended): for every byte sequence `B` with `|B| < 2^31`,
`slice_i8_to_hglobal` produces a block whose content is exactly `B`
(hence sized exactly `|B|`, with no appended termination byte) and
writes `B`'s length through the out-parameter. -/
theorem slice_to_hglobal_exact_copy (B : List Byte) (hB : B.length < 2147483648) :
    (slice_i8_to_hglobal B).1 = B ∧
    (slice_i8_to_hglobal B).1.length = B.length ∧
    (slice_i8_to_hglobal B).2 = (B.length : Int) := by
  refine ⟨rfl, rfl, ?_⟩
  simp [slice_i8_to_hglobal, i32ofNat_of_lt B.length hB]

/-- Witness for C7's amended theorem at `B = [5, 6]`. -/
theorem slice_to_hglobal_exact_copy_witness :
    (slice_i8_to_hglobal [5, 6]).1 = [5, 6] ∧
    (slice_i8_to_hglobal [5, 6]).1.length = ([5, 6] : List Byte).length ∧
    (slice_i8_to_hglobal [5, 6]).2 = (([5, 6] : List Byte).length : Int) :=
  slice_to_hglobal_exact_copy [5, 6] (by norm_num)

/-- C7 counterexample: at `B = List.replicate 2^31 0` the out-parameter
receives `-2^31`, not `B`'s length — `*h_len = data_len as c_long`
truncates to 32 bits.  (The block content is still exactly `B`; only the
reported length deviates.) -/
theorem slice_to_hglobal_length_overflow_cex :
    (slice_i8_to_hglobal bigBlock).2 ≠ (bigBlock.length : Int) := by
  rw [bigBlock_reported_len, bigBlock_len]
  norm_num

/-- Boundary actions an entry point performs on host memory, recorded in
source order: `copyOut h` is a copy of bytes out of the received handle
`h` (`hglobal_to_vec_u8`), `free h` is `GlobalFree(h)`, `userCall` is an
invocation of the user callback, and `allocOut` is the allocation of the
response handle handed back to the host (`GlobalAlloc` inside
`slice_i8_to_hglobal`).  User callbacks are modelled as pure functions,
so no release can originate from user code. -/
inductive BoundaryEvent
  | copyOut (h : Nat)
  | free (h : Nat)
  | userCall
  | allocOut
deriving DecidableEq, Repr

/-- Function `load` as produced by `define_load!(cb)` (src/lib.rs lines
200-211): `GlobalFree(h)` first, then the user callback; the received
buffer is never read (the parameter `_len` is unused).  The result is
paired with the trace of boundary actions in source order. -/
def load_entry (cb : Unit → Bool) (h : Nat) : BOOL × List BoundaryEvent :=
  (boolToBOOL (cb ()), [BoundaryEvent.free h, BoundaryEvent.userCall])

/-- Result of one `request` call: the content of the response block
handed to the host, the value written through the in/out length
parameter, and (instrumentation) the owned buffer that was passed to the
user callback. -/
structure RequestResult where
  response : List Byte
  outLen : Int
  callbackArg : List Byte
deriving DecidableEq, Repr

/-- Trace of boundary actions of one defined `request` call, in the
source order of src/lib.rs lines 227-233: copy the request out of `h`,
free `h`, run the user callback, allocate the response handle. -/
def requestTrace (h : Nat) : List BoundaryEvent :=
  [BoundaryEvent.copyOut h, BoundaryEvent.free h, BoundaryEvent.userCall, BoundaryEvent.allocOut]

/-- Function `request` as produced by `define_request!(cb)` (src/lib.rs
lines 224-235): `let s = hglobal_to_vec_u8(h, *len)`, `GlobalFree(h)`,
`let response_bytes = cb(&s)`, `slice_i8_to_hglobal(len, &response_bytes)`.
The handle is identified by `h` and its content given by `mem`; `len` is
the value the host stored in `*len`.  A host-supplied length outside the
copy's safety precondition is undefined behaviour (`none`). -/
def request_entry (cb : List Byte → List Byte) (h : Nat) (mem : List Byte) (len : Int) :
    Option (RequestResult × List BoundaryEvent) :=
  match hglobal_to_vec_u8 mem len with
  | none => none
  | some s =>
    some (⟨(slice_i8_to_hglobal (cb s)).1, (slice_i8_to_hglobal (cb s)).2, s⟩, requestTrace h)

/-- Handle `h` is released exactly once in the trace `E`, after every
copy out of `h` and before any user-callback work: `E` splits around a
single `free h`, with no `free h` elsewhere, no user call before it and
no copy out of `h` after it. -/
def FreedOnceInOrder (E : List BoundaryEvent) (h : Nat) : Prop :=
  ∃ pre post, E = pre ++ BoundaryEvent.free h :: post ∧
    BoundaryEvent.free h ∉ pre ∧ BoundaryEvent.free h ∉ post ∧
    BoundaryEvent.userCall ∉ pre ∧ BoundaryEvent.copyOut h ∉ post

/-- C10: for every defined `request` call (host-supplied length `len`
with `0 ≤ len` and within the block's extent), the buffer handed to the
user request callback is the `len` received bytes followed by one
appended `0` byte, so its length is `len + 1`: the callback observes a
trailing NUL the host did not send. -/
theorem request_callback_arg_has_trailing_nul (cb : List Byte → List Byte) (h : Nat)
    (mem : List Byte) (len : Int) (h0 : 0 ≤ len) (h1 : len.toNat ≤ mem.length) :
    ∃ res : RequestResult × List BoundaryEvent,
      request_entry cb h mem len = some res ∧
      res.1.callbackArg = mem.take len.toNat ++ [0] ∧
      res.1.callbackArg.length = len.toNat + 1 := by
  refine ⟨(⟨(slice_i8_to_hglobal (cb (mem.take len.toNat ++ [0]))).1,
      (slice_i8_to_hglobal (cb (mem.take len.toNat ++ [0]))).2,
      mem.take len.toNat ++ [0]⟩, requestTrace h), ?_, rfl, ?_⟩
  · rw [request_entry, hglobal_to_vec_u8, if_pos ⟨h0, h1⟩]
  · simp
    omega

/-- Witness for C10 at `mem = [65, 66]`, `len = 2`. -/
theorem request_callback_arg_has_trailing_nul_witness :
    ∃ res : RequestResult × List BoundaryEvent,
      request_entry (fun _ => [88, 89, 0]) 7 [65, 66] 2 = some res ∧
      res.1.callbackArg = ([65, 66] : List Byte).take (2 : Int).toNat ++ [0] ∧
      res.1.callbackArg.length = (2 : Int).toNat + 1 :=
  request_callback_arg_has_trailing_nul (fun _ => [88, 89, 0]) 7 [65, 66] 2
    (by norm_num) (by norm_num)

/-- Helper: a defined copy of the request buffer, stated once for reuse. -/
theorem hglobal_to_vec_u8_of_valid (mem : List Byte) (len : Int) (h0 : 0 ≤ len)
    (h1 : len.toNat ≤ mem.length) :
    hglobal_to_vec_u8 mem len = some (mem.take len.toNat ++ [0]) := by
  rw [hglobal_to_vec_u8, if_pos ⟨h0, h1⟩]

/-- C3 (amended): for every defined `request` call and every response
`R` the user callback returns, provided `R`'s length fits the 32-bit
in/out parameter (`|R| < 2^31`), the adapter hands back a new block whose
content is exactly `R` (unread, untransformed) and writes exactly `R`'s
length through the out-parameter.  (Without the length bound the content
is still exactly `R`, but the written length is `R`'s length wrapped to
32 bits.) -/
theorem request_passes_response_verbatim (cb : List Byte → List Byte) (h : Nat)
    (mem : List Byte) (len : Int) (h0 : 0 ≤ len) (h1 : len.toNat ≤ mem.length)
    (hR : (cb (mem.take len.toNat ++ [0])).length < 2147483648) :
    request_entry cb h mem len =
      some (⟨cb (mem.take len.toNat ++ [0]),
        ((cb (mem.take len.toNat ++ [0])).length : Int),
        mem.take len.toNat ++ [0]⟩, requestTrace h) := by
  simp only [request_entry, hglobal_to_vec_u8_of_valid mem len h0 h1,
    slice_i8_to_hglobal_fst, slice_i8_to_hglobal_snd,
    i32ofNat_of_lt (cb (mem.take len.toNat ++ [0])).length hR]

/-- Witness for C3's amended theorem: the spec's end-to-end scenario 3 —
request bytes `[0x41, 0x42]` with length 2, callback response
`[0x58, 0x59, 0x00]`, out-parameter 3, returned block exactly the
response. -/
theorem request_passes_response_verbatim_witness :
    request_entry (fun _ => [88, 89, 0]) 9 [65, 66] 2 =
      some (⟨(fun _ => ([88, 89, 0] : List Byte)) (([65, 66] : List Byte).take (2 : Int).toNat ++ [0]),
        (((fun _ => ([88, 89, 0] : List Byte)) (([65, 66] : List Byte).take (2 : Int).toNat ++ [0])).length : Int),
        ([65, 66] : List Byte).take (2 : Int).toNat ++ [0]⟩, requestTrace 9) :=
  request_passes_response_verbatim (fun _ => [88, 89, 0]) 9 [65, 66] 2
    (by norm_num) (by norm_num) (by norm_num)

/-- Helper for C3's counterexample: a user request callback whose
response is `2^31` bytes long. -/
def bigResp : List Byte → List Byte := fun _ => bigBlock

/-- C3 counterexample: with request bytes `[65, 66]` and length 2, and
the callback response `bigBlock` of length `2^31`, the adapter writes
`-2^31` through the out-parameter — not the response's length.  The
second conjunct records that those differ, refuting the claim at this
concrete input. -/
theorem request_outlen_overflow_cex :
    request_entry bigResp 7 [65, 66] 2 =
      some (⟨bigBlock, -2147483648, [65, 66, 0]⟩, requestTrace 7) ∧
    (-2147483648 : Int) ≠ ((bigResp [65, 66, 0]).length : Int) := by
  constructor
  · have hs : hglobal_to_vec_u8 [65, 66] 2 = some [65, 66, 0] := rfl
    have hb : ∀ s, bigResp s = bigBlock := fun _ => rfl
    simp only [request_entry, hs, slice_i8_to_hglobal_fst, slice_i8_to_hglobal_snd, hb]
    rw [bigBlock_len, i32ofNat_two_pow31]
  · show (-2147483648 : Int) ≠ (bigBlock.length : Int)
    rw [bigBlock_len]
    norm_num

/-- C8: for the `load` and `request` entry points of src/lib.rs, the
received handle is released exactly once, after every copy out of it and
before the user callback runs (`load` copies nothing out — its buffer is
never read — so its single release trivially follows all needed copies);
releases are issued only by the adapter, the user callbacks being pure
functions. -/
theorem handle_freed_exactly_once (h : Nat) (cbL : Unit → Bool)
    (cbR : List Byte → List Byte) (mem : List Byte) (len : Int)
    (h0 : 0 ≤ len) (h1 : len.toNat ≤ mem.length) :
    FreedOnceInOrder (load_entry cbL h).2 h ∧
    ∃ res : RequestResult × List BoundaryEvent,
      request_entry cbR h mem len = some res ∧ FreedOnceInOrder res.2 h := by
  constructor
  · exact ⟨[], [BoundaryEvent.userCall], rfl, by simp, by simp, by simp, by simp⟩
  · refine ⟨(⟨(slice_i8_to_hglobal (cbR (mem.take len.toNat ++ [0]))).1,
      (slice_i8_to_hglobal (cbR (mem.take len.toNat ++ [0]))).2,
      mem.take len.toNat ++ [0]⟩, requestTrace h), ?_, ?_⟩
    · simp only [request_entry, hglobal_to_vec_u8_of_valid mem len h0 h1]
    · exact ⟨[BoundaryEvent.copyOut h], [BoundaryEvent.userCall, BoundaryEvent.allocOut],
        rfl, by simp, by simp, by simp, by simp⟩

/-- Witness for C8 at handle `3`, request bytes `[1]`, length 1. -/
theorem handle_freed_exactly_once_witness :
    FreedOnceInOrder (load_entry (fun _ => true) 3).2 3 ∧
    ∃ res : RequestResult × List BoundaryEvent,
      request_entry (fun s => s) 3 [1] 1 = some res ∧ FreedOnceInOrder res.2 3 :=
  handle_freed_exactly_once 3 (fun _ => true) (fun s => s) [1] 1 (by norm_num) (by norm_num)

/-- Continuation byte of a UTF-8 sequence: `0x80..0xBF`. -/
def utf8Cont (b : Byte) : Bool := 128 ≤ b && b ≤ 191

/-- Modelled from the spec: strict UTF-8 well-formedness, as used by the
modern `loadu` adapter of the current `define_load` macro (the macro
itself is not among the sources; `dll_util.rs` only supplies its
helpers).  The spec requires decoding "strictly as UTF-8"; this is the
standard UTF-8 byte-sequence validity check (`String::from_utf8`
succeeds exactly on such sequences). -/
def validUtf8 : List Byte → Bool
  | [] => true
  | b :: rest =>
    if b < 128 then validUtf8 rest
    else if 194 ≤ b && b ≤ 223 then
      match rest with
      | c :: tail => utf8Cont c && validUtf8 tail
      | [] => false
    else if b = 224 then
      match rest with
      | c1 :: c2 :: tail => (160 ≤ c1 && c1 ≤ 191) && utf8Cont c2 && validUtf8 tail
      | _ => false
    else if (225 ≤ b && b ≤ 236) || b = 238 || b = 239 then
      match rest with
      | c1 :: c2 :: tail => utf8Cont c1 && utf8Cont c2 && validUtf8 tail
      | _ => false
    else if b = 237 then
      match rest with
      | c1 :: c2 :: tail => (128 ≤ c1 && c1 ≤ 159) && utf8Cont c2 && validUtf8 tail
      | _ => false
    else if b = 240 then
      match rest with
      | c1 :: c2 :: c3 :: tail =>
        (144 ≤ c1 && c1 ≤ 191) && utf8Cont c2 && utf8Cont c3 && validUtf8 tail
      | _ => false
    else if 241 ≤ b && b ≤ 243 then
      match rest with
      | c1 :: c2 :: c3 :: tail => utf8Cont c1 && utf8Cont c2 && utf8Cont c3 && validUtf8 tail
      | _ => false
    else if b = 244 then
      match rest with
      | c1 :: c2 :: c3 :: tail =>
        (128 ≤ c1 && c1 ≤ 143) && utf8Cont c2 && utf8Cont c3 && validUtf8 tail
      | _ => false
    else false

/-- Modelled from the spec: `decode_utf8(bytes) -> Text | Error`, strict
(any invalid sequence fails the whole operation).  Decoded text is
represented by its UTF-8 byte sequence, so success returns the bytes
themselves. -/
def decodeUtf8 (bytes : List Byte) : Option (List Byte) :=
  if validUtf8 bytes then some bytes else none

/-- Process-wide write-once state of the load negotiator — the
`DLL_PATH` and `LOADU_RESULT` cells of src/dll_util.rs — plus an
instrumentation counter of user load-callback invocations. -/
structure LoadState where
  dllPath : Option (List Byte)
  loaduResult : Option BOOL
  loadCount : Nat
deriving DecidableEq, Repr

/-- Fresh-process state: both cells unset, callback never invoked. -/
def initState : LoadState := ⟨none, none, 0⟩

/-- Modelled from the spec: the modern `loadu` entry point of the
current `define_load` macro (not among the sources; its helpers
`register_dll_path` and `register_loadu_result` are, in dll_util.rs).
Steps per the spec: copy-and-release the handle (the owned `bytes` are
the copied content), decode strictly as UTF-8 (failure is terminal, no
callback), register the module path (an already-set cell is failure, no
callback), invoke the user load callback, cache its boolean result (a
caching conflict is reported as failure even if the callback
succeeded). -/
def spec_loadu (cb : List Byte → Bool) (bytes : List Byte) (st : LoadState) :
    BOOL × LoadState :=
  match decodeUtf8 bytes with
  | none => (FALSE, st)
  | some path =>
    match st.dllPath with
    | some _ => (FALSE, st)
    | none =>
      let r := cb path
      match st.loaduResult with
      | some _ => (FALSE, ⟨some path, st.loaduResult, st.loadCount + 1⟩)
      | none => (boolToBOOL r, ⟨some path, some (boolToBOOL r), st.loadCount + 1⟩)

/-- Modelled from the spec: the legacy `load` entry point of the current
`define_load` macro.  Steps per the spec: copy-and-release the handle;
if a `loadu` outcome is already cached return it at once without
invoking the callback (idempotency guard); otherwise decode via the
legacy OEM codepage (`dec` stands for `decode_from_oem_codepage` under
the ambient codepage; failure is terminal, no callback), register the
module path (already-set is failure, no callback), invoke the user load
callback and propagate its result without caching it. -/
def spec_load (dec : List Byte → Option (List Byte)) (cb : List Byte → Bool)
    (bytes : List Byte) (st : LoadState) : BOOL × LoadState :=
  match st.loaduResult with
  | some x => (x, st)
  | none =>
    match dec bytes with
    | none => (FALSE, st)
    | some path =>
      match st.dllPath with
      | some _ => (FALSE, st)
      | none => (boolToBOOL (cb path), ⟨some path, none, st.loadCount + 1⟩)

/-- Helper callback used by concrete runs: always succeeds. -/
def constTrueCb : List Byte → Bool := fun _ => true

/-- Helper legacy decoder used by concrete runs: every byte sequence
decodes to itself (a codepage under which the bytes are valid). -/
def idLegacyDec : List Byte → Option (List Byte) := fun b => some b

/-- Helper legacy decoder used by concrete runs: rejects every byte
sequence (a codepage under which the bytes are invalid). -/
def noneLegacyDec : List Byte → Option (List Byte) := fun _ => none

/-- C1 counterexample: from the fresh state, call `loadu` with bytes
`[255]` — invalid UTF-8, so `loadu` returns outcome `FALSE` and caches
nothing — then call the legacy `load` with decodable bytes `[65]` and a
callback returning `true`: `load` returns `TRUE`, not `loadu`'s outcome
`FALSE` (and only now is the callback invoked for the first time). -/
theorem loadu_failure_not_cached_cex :
    decodeUtf8 [255] = none ∧
    (spec_loadu constTrueCb [255] initState).1 = FALSE ∧
    (spec_load idLegacyDec constTrueCb [65] (spec_loadu constTrueCb [255] initState).2).1 = TRUE ∧
    TRUE ≠ FALSE := by
  decide

/-- C1 (amended): if `loadu` is called first from the fresh state and
its bytes decode as UTF-8 — so the user callback runs and its outcome is
cached — then a subsequent legacy `load` call, with any decoder and any
bytes, returns `loadu`'s outcome and leaves the state untouched: the
callback is not invoked a second time and the invocation count stays at
1.  (If `loadu`'s decode fails nothing is cached and a later `load`
proceeds on its own, as the counterexample shows.) -/
theorem load_after_loadu_returns_cached_outcome (cb : List Byte → Bool)
    (bytes path : List Byte) (hdec : decodeUtf8 bytes = some path)
    (dec : List Byte → Option (List Byte)) (bytes2 : List Byte) :
    spec_load dec cb bytes2 (spec_loadu cb bytes initState).2 =
      ((spec_loadu cb bytes initState).1, (spec_loadu cb bytes initState).2) ∧
    (spec_loadu cb bytes initState).2.loadCount = 1 ∧
    (spec_load dec cb bytes2 (spec_loadu cb bytes initState).2).2.loadCount = 1 := by
  simp only [spec_loadu, hdec, initState]
  simp [spec_load]

/-- Witness for C1's amended theorem: `loadu` first with the valid UTF-8
bytes `[67, 58]`, then `load` with bytes `[99]`. -/
theorem load_after_loadu_witness :
    spec_load idLegacyDec constTrueCb [99] (spec_loadu constTrueCb [67, 58] initState).2 =
      ((spec_loadu constTrueCb [67, 58] initState).1,
        (spec_loadu constTrueCb [67, 58] initState).2) ∧
    (spec_loadu constTrueCb [67, 58] initState).2.loadCount = 1 ∧
    (spec_load idLegacyDec constTrueCb [99]
        (spec_loadu constTrueCb [67, 58] initState).2).2.loadCount = 1 :=
  load_after_loadu_returns_cached_outcome constTrueCb [67, 58] [67, 58] (by decide)
    idLegacyDec [99]

/-- C5 counterexample: after a successful `loadu` (valid UTF-8 bytes
`[67]`, callback `true`), a legacy `load` call whose bytes `[255]` fail
legacy-codepage decoding returns `TRUE` — success, not failure — because
the cached outcome short-circuits before the decoder ever runs.  The
callback is still not invoked, but the call does not return failure as
the claim states. -/
theorem load_decode_failure_after_loadu_cex :
    noneLegacyDec [255] = none ∧
    (spec_load noneLegacyDec constTrueCb [255] (spec_loadu constTrueCb [67] initState).2).1 = TRUE ∧
    TRUE ≠ FALSE := by
  decide

/-- C5 (amended): in the legacy `load` entry point, when no `loadu`
outcome is cached (so the decoder actually runs), every input whose
bytes fail legacy-codepage decoding makes the call return failure with
the state unchanged — in particular the user load callback is not
invoked. -/
theorem load_decode_failure_terminal (dec : List Byte → Option (List Byte))
    (cb : List Byte → Bool) (bytes : List Byte) (st : LoadState)
    (hcache : st.loaduResult = none) (hdec : dec bytes = none) :
    spec_load dec cb bytes st = (FALSE, st) := by
  simp only [spec_load, hcache, hdec]

/-- Witness for C5's amended theorem at the fresh state with bytes
`[255]` under a decoder that rejects them. -/
theorem load_decode_failure_terminal_witness :
    spec_load noneLegacyDec constTrueCb [255] initState = (FALSE, initState) :=
  load_decode_failure_terminal noneLegacyDec constTrueCb [255] initState rfl rfl

/-- Strict decoding by one codepage, per `DecoderTrap::Strict` of the
`encoding` crate: the per-byte table maps each input byte to its decoded
character codes or rejects it; a single rejected byte anywhere fails the
whole operation, with no replacement characters and no partial result. -/
def decodeStrict (table : Byte → Option (List Nat)) : List Byte → Option (List Nat)
  | [] => some []
  | b :: rest =>
    match table b, decodeStrict table rest with
    | some cs, some tl => some (cs ++ tl)
    | _, _ => none

/-- Function `decode_from_oem_codepage` (src/dll_util.rs lines 59-75).
`oemCp` stands for the host environment's `GetOEMCP()` result and
`lookup` for the `encoding` crate's `encoding_from_windows_code_page`
table — both external collaborators, passed explicitly.  An unrecognized
codepage returns `Err(FALSE)`; a recognized codepage whose strict decode
rejects the bytes also returns `Err(FALSE)`; the two branches differ
only in their logged diagnostic text, not in the returned value. -/
def decode_from_oem_codepage (lookup : Nat → Option (Byte → Option (List Nat)))
    (oemCp : Nat) (bytes : List Byte) : Except BOOL (List Nat) :=
  match lookup oemCp with
  | none => Except.error FALSE
  | some table =>
    match decodeStrict table bytes with
    | none => Except.error FALSE
    | some v => Except.ok v

/-- Helper: one byte rejected by the table fails the whole strict
decode. -/
theorem decodeStrict_eq_none_of_mem (table : Byte → Option (List Nat))
    (bytes : List Byte) (b : Byte) (hmem : b ∈ bytes) (hb : table b = none) :
    decodeStrict table bytes = none := by
  induction bytes with
  | nil => cases hmem
  | cons a l ih =>
    rcases List.mem_cons.mp hmem with h | h
    · subst h
      simp [decodeStrict, hb]
    · rw [decodeStrict, ih h]
      cases table a <;> rfl

/-- C6: both failure modes of `decode_from_oem_codepage` — (a) the
active codepage identifier is not recognized by the lookup, (b) the
recognized codepage's strict decoder rejects the bytes — return the very
same failure signal `Err(FALSE)`; a single invalid byte fails the whole
operation (no partial result); and every error the function can return
equals `FALSE`. -/
theorem oem_decode_failure_uniform (lookup : Nat → Option (Byte → Option (List Nat)))
    (cp : Nat) (bytes : List Byte) :
    (lookup cp = none → decode_from_oem_codepage lookup cp bytes = Except.error FALSE) ∧
    (∀ table, lookup cp = some table → decodeStrict table bytes = none →
      decode_from_oem_codepage lookup cp bytes = Except.error FALSE) ∧
    (∀ table b, lookup cp = some table → b ∈ bytes → table b = none →
      decode_from_oem_codepage lookup cp bytes = Except.error FALSE) ∧
    (∀ e, decode_from_oem_codepage lookup cp bytes = Except.error e → e = FALSE) := by
  refine ⟨fun h => ?_, fun table h hd => ?_, fun table b h hmem hb => ?_, fun e he => ?_⟩
  · simp only [decode_from_oem_codepage, h]
  · simp only [decode_from_oem_codepage, h, hd]
  · simp only [decode_from_oem_codepage, h,
      decodeStrict_eq_none_of_mem table bytes b hmem hb]
  · rw [decode_from_oem_codepage] at he
    cases hl : lookup cp with
    | none => rw [hl] at he; cases he; rfl
    | some table =>
      simp only [hl] at he
      cases hd : decodeStrict table bytes with
      | none => simp only [hd] at he; cases he; rfl
      | some v => simp only [hd] at he; cases he

/-- Helper codepage table for concrete runs: a pure-ASCII single-byte
codepage that rejects every byte at or above 128. -/
def asciiTable : Byte → Option (List Nat) := fun b => if b < 128 then some [b] else none

/-- Helper codepage lookup for concrete runs: recognizes only codepage
437, mapping it to the ASCII table. -/
def lookup437 : Nat → Option (Byte → Option (List Nat)) :=
  fun cp => if cp = 437 then some asciiTable else none

/-- Witness for C6: under the concrete lookup, codepage 932 is
unrecognized and fails with `FALSE`; codepage 437 with bytes
`[65, 200]` — one invalid byte among valid ones — fails with the same
`FALSE`; and the uniformity conjunct applied to the latter failure gives
`FALSE = FALSE`. -/
theorem oem_decode_failure_uniform_witness :
    decode_from_oem_codepage lookup437 932 [65] = Except.error FALSE ∧
    decode_from_oem_codepage lookup437 437 [65, 200] = Except.error FALSE ∧
    FALSE = FALSE := by
  refine ⟨(oem_decode_failure_uniform lookup437 932 [65]).1 rfl, ?_, ?_⟩
  · exact (oem_decode_failure_uniform lookup437 437 [65, 200]).2.2.1 asciiTable 200 rfl
      (by decide) rfl
  · exact (oem_decode_failure_uniform lookup437 437 [65, 200]).2.2.2 FALSE
      ((oem_decode_failure_uniform lookup437 437 [65, 200]).2.2.1 asciiTable 200 rfl
        (by decide) rfl)

end Ukagaka
